import Mathlib

set_option maxRecDepth 100000

/-!
Verification of the `dji-frame` binary framing codec.

This file gives a shallow embedding of the framing engine found in
`src/crates/dji-frame/src/` (error.rs, frame.rs, msger.rs, tests.rs):
bytes are `Nat`s (with explicit `% 256` / `% 65536` where the Rust `u8`/`u16`
types truncate), buffers are `List Nat`, mutation of a `&mut [u8]` buffer is
explicit state passing, and the fallible operations return `Except Err`.
The `unpack` embedding returns `Option (Except ...)`: `none` models the one
`unwrap()` call in the source (a potential panic site), so that totality of
decoding is a theorem rather than an artifact of the embedding.
The two checksum functions are parameters of `pack`/`unpack`, mirroring the
`Validator` trait parameter of `Messager`; the concrete DJI checksums are
modelled from the spec because `crc8_dji.rs`/`crc16_dji.rs` are not included
under `src/`.
-/

namespace DjiFrame

/-- Start of Frame byte (`SOF` in msger.rs). -/
def SOF : Nat := 0xA5

/-- Size of the frame header (SOF + length + sequence + CRC8). -/
def HEAD_SIZE : Nat := 5

/-- Size of the command ID field. -/
def CMDID_SIZE : Nat := 2

/-- Size of the tail CRC field. -/
def TAIL_SIZE : Nat := 2

/-- Error taxonomy of error.rs (`enum Error`). Each constructor carries the
position/size field of the corresponding Rust variant. -/
inductive Err where
  | BufferTooSmall (need : Nat)
  | InputTooLarge (max : Nat)
  | UnexpectedEnd (read : Nat)
  | ReSync (skip : Nat)
  | MissingHeader (skip : Nat)
  | InvalidChecksum (off : Nat)
  | DecodeError (off : Nat)
  | EncodeError (inner : Nat)
  | InvalidDataLength (expected : Nat)
  deriving DecidableEq

/-- Embedding of `Error::skip` (error.rs lines 49-67). -/
def Err.skip : Err → Nat
  | .BufferTooSmall _ => 0
  | .InputTooLarge _ => 0
  | .UnexpectedEnd _ => 0
  | .ReSync s => s
  | .MissingHeader s => s
  | .InvalidChecksum _ => 1
  | .DecodeError a => a
  | .EncodeError _ => 0
  | .InvalidDataLength _ => 0

/-- Modelled from the spec: one bit-step of the DJI CRC8. The files
`crc8_dji.rs`/`crc16_dji.rs` are not included under `src/`; spec §4.1 fixes the
algorithm family as the DJI-compatible CRC8 verified by
CRC8("123456789") = 0x0B, which is the reflected polynomial 0x8C with
initial value 0xFF. -/
def crc8_step (c : Nat) : Nat :=
  if c % 2 = 1 then Nat.xor (c / 2) 0x8C else c / 2

/-- Modelled from the spec: DJI-compatible CRC8 (init 0xFF, reflected poly 0x8C),
per §4.1; the concrete `crc8_dji.rs` is absent from `src/`. -/
def calc_dji8 (data : List Nat) : Nat :=
  data.foldl (fun c b => crc8_step^[8] (Nat.xor c b)) 0xFF

/-- Modelled from the spec: one bit-step of the DJI CRC16. -/
def crc16_step (c : Nat) : Nat :=
  if c % 2 = 1 then Nat.xor (c / 2) 0x8408 else c / 2

/-- Modelled from the spec: DJI-compatible CRC16 (init 0xFFFF, reflected poly
0x8408, i.e. CRC-16/MCRF4XX) verified by CRC16("123456789") = 0x6F91, per §4.1;
the concrete `crc16_dji.rs` is absent from `src/`. -/
def calc_dji16 (data : List Nat) : Nat :=
  data.foldl (fun c b => crc16_step^[8] (Nat.xor c b)) 0xFFFF

/-- A validated but undecoded frame (frame.rs `RawFrame`). -/
structure RawFrame where
  cmd_id : Nat
  sequence : Nat
  payload : List Nat
  deriving DecidableEq

/-- Embedding of Rust's `iter().position(pred)`: index of the first element
satisfying the predicate. -/
def position (p : Nat → Bool) : List Nat → Option Nat
  | [] => none
  | x :: xs => if p x then some 0 else (position p xs).map (· + 1)

/-- Embedding of `Messager::unpack` (msger.rs lines 195-275), parametric in the
`Validator`'s two checksum functions. The `none` result models the
`src.get(..cursor).unwrap()` panic site at msger.rs line 239; every other
path mirrors the source's checks in order. -/
def unpack (c8 : List Nat → Nat) (c16 : List Nat → Nat) (src : List Nat) :
    Option (Except Err (RawFrame × Nat)) :=
  -- Locate start-of-frame: `src.starts_with(&[SOF])`.
  if src.head? ≠ some SOF then
    match position (fun x => x == SOF) src with
    | some start => some (.error (.ReSync start))
    | none => some (.error (.MissingHeader src.length))
  -- Read header: `src.get(0..HEAD_SIZE)`.
  else if src.length < HEAD_SIZE then
    some (.error (.UnexpectedEnd src.length))
  else
    let header := src.take HEAD_SIZE
    -- Validate header CRC8 over the first 4 bytes.
    if c8 (header.take 4) ≠ header.getD 4 0 then
      some (.error (.InvalidChecksum HEAD_SIZE))
    else
      let length := header.getD 1 0 + 256 * header.getD 2 0
      let sequence := header.getD 3 0
      -- Read command ID: `src.get(5..7)`.
      if src.length < HEAD_SIZE + CMDID_SIZE then
        some (.error (.UnexpectedEnd src.length))
      else
        let cmd := (src.drop HEAD_SIZE).take CMDID_SIZE
        -- Read payload: `src.get(7..7+length)`.
        if src.length < HEAD_SIZE + CMDID_SIZE + length then
          some (.error (.UnexpectedEnd src.length))
        else
          let payload := (src.drop (HEAD_SIZE + CMDID_SIZE)).take length
          let cursor := HEAD_SIZE + CMDID_SIZE + length
          -- `src.get(..cursor).unwrap()`: panics unless cursor is in bounds.
          if cursor ≤ src.length then
            -- Read tail CRC: `src.get(cursor..cursor+TAIL_SIZE)`.
            if src.length < cursor + TAIL_SIZE then
              some (.error (.UnexpectedEnd src.length))
            else
              let tail := (src.drop cursor).take TAIL_SIZE
              -- Validate frame CRC16 over `src[..cursor]`.
              if c16 (src.take cursor) ≠ tail.getD 0 0 + 256 * tail.getD 1 0 then
                some (.error (.InvalidChecksum (cursor + TAIL_SIZE)))
              else
                some (.ok
                  (⟨cmd.getD 0 0 + 256 * cmd.getD 1 0, sequence, payload⟩,
                    cursor + TAIL_SIZE))
          else none

/-- In-place write of `src` into `dst` starting at `off`
(Rust `dst[off..off+src.len()].copy_from_slice(&src)`). -/
def writeSlice (dst : List Nat) (off : Nat) (src : List Nat) : List Nat :=
  dst.take off ++ src ++ dst.drop (off + src.length)

/-- A payload type implementing the `Marshaler` trait (frame.rs lines 82-112):
its `CMD_ID` constant, its `marshal` (which receives the payload subslice of the
destination and returns its result together with the subslice's new contents,
modelling writes through the `&mut` borrow even on failure), and its
`unmarshal`. -/
structure Marshaler (α : Type) where
  cmd_id : Nat
  marshal : α → List Nat → (Except Err Nat) × List Nat
  unmarshal : List Nat → Except Err α

/-- Embedding of `Messager::pack` (msger.rs lines 99-170), parametric in the
`Validator`'s checksum functions and in the `Marshaler`. The state it threads
is the `u8` sequence counter (the `Messager`'s only field); the result is
(return value, final contents of `dst`, final sequence counter). -/
def pack {α : Type} (c8 c16 : List Nat → Nat) (M : Marshaler α) (msg : α)
    (seq : Nat) (dst : List Nat) : (Except Err Nat) × List Nat × Nat :=
  -- Ensure space for header and command ID.
  let payload_offset := HEAD_SIZE + CMDID_SIZE
  if dst.length < payload_offset then
    (.error (.BufferTooSmall payload_offset), dst, seq)
  else
    -- Serialize payload directly into the destination buffer.
    let mres := M.marshal msg (dst.drop payload_offset)
    let dst1 := dst.take payload_offset ++ mres.2
    match mres.1 with
    | .error e => (.error e, dst1, seq)
    | .ok size =>
      -- Validate payload length.
      if size > 65535 then (.error (.InputTooLarge 65535), dst1, seq)
      else
        -- Ensure space for the entire frame.
        let total := payload_offset + size + TAIL_SIZE
        if dst.length < total then
          (.error (.BufferTooSmall (total - dst.length)), dst1, seq)
        else
          -- Build frame header (size as u16 little-endian, then CRC8).
          let head4 := [SOF, size % 256, size / 256 % 256, seq]
          let header := head4 ++ [c8 head4]
          -- Write header.
          let dst2 := writeSlice dst1 0 header
          -- Write command ID (u16 little-endian).
          let dst3 := writeSlice dst2 HEAD_SIZE [M.cmd_id % 256, M.cmd_id / 256 % 256]
          -- Skip over payload (already written).
          let cursor := payload_offset + size
          -- Write frame CRC (u16 little-endian).
          let crc := c16 (dst3.take cursor)
          let dst4 := writeSlice dst3 cursor [crc % 256, crc / 256 % 256]
          -- Advance sequence number (u8 wrapping add).
          (.ok (cursor + TAIL_SIZE), dst4, (seq + 1) % 256)

/-- The `Messager` struct of msger.rs: its only field is the `u8` sequence
counter. -/
structure Messager where
  sequence : Nat
  deriving DecidableEq

/-- `Messager::new` (msger.rs lines 69-74). -/
def Messager.new (seq : Nat) : Messager := ⟨seq⟩

/-- `Messager::unpack` as a method on the `Messager` state: the Rust receiver is
`&self`, a shared borrow that admits no mutation and whose `sequence` field the
body never reads, so the embedding returns the receiver unchanged next to the
result of the pure decode. -/
def Messager.unpack (m : Messager) (c8 c16 : List Nat → Nat) (src : List Nat) :
    Option (Except Err (RawFrame × Nat)) × Messager :=
  (DjiFrame.unpack c8 c16 src, m)

/-- The `TestCase<N>` marshal of tests.rs lines 19-28: fails with
`BufferTooSmall(N)` when the destination is shorter than N, otherwise copies
the N payload bytes to the front of the destination. -/
def TestCase.marshal (N : Nat) (payload : List Nat) (dst : List Nat) :
    (Except Err Nat) × List Nat :=
  if dst.length < N then (.error (.BufferTooSmall N), dst)
  else (.ok N, payload.take N ++ dst.drop N)

/-- The `TestCase<N>` unmarshal of tests.rs lines 30-37. -/
def TestCase.unmarshal (N : Nat) (src : List Nat) : Except Err (List Nat) :=
  if src.length < N ∨ src.length ≠ N then .error (.InvalidDataLength N)
  else .ok (src.take N)

/-- The `TestCase<N>` payload type of tests.rs as a `Marshaler` (CMD_ID 0x1234). -/
def testCase (N : Nat) : Marshaler (List Nat) :=
  ⟨0x1234, TestCase.marshal N, TestCase.unmarshal N⟩

/-- The frame image produced by a successful `pack`: header (SOF, u16 LE size,
sequence, CRC8), u16 LE command id, the first `size` payload bytes written by
the marshaler, and the u16 LE CRC16 over everything before it. -/
def frameOf {α : Type} (c8 c16 : List Nat → Nat) (M : Marshaler α)
    (seq : Nat) (size : Nat) (sub : List Nat) : List Nat :=
  let header := [SOF, size % 256, size / 256 % 256, seq,
    c8 [SOF, size % 256, size / 256 % 256, seq]]
  let body := header ++ [M.cmd_id % 256, M.cmd_id / 256 % 256] ++ sub.take size
  body ++ [c16 body % 256, c16 body / 256 % 256]

/-- A sequence of `pack` calls on one `Messager`, threading the sequence
counter: returns the (result, buffer) pair of each call and the final counter. -/
def packChain {α : Type} (c8 c16 : List Nat → Nat) (M : Marshaler α)
    (jobs : List (α × List Nat)) (seq : Nat) :
    List ((Except Err Nat) × List Nat) × Nat :=
  match jobs with
  | [] => ([], seq)
  | (msg, dst) :: rest =>
    let r := pack c8 c16 M msg seq dst
    let rc := packChain c8 c16 M rest r.2.2
    ((r.1, r.2.1) :: rc.1, rc.2)

/-- Boolean success test for an `Except` result (Rust `Result::is_ok`). -/
def isOk {eps beta : Type} : Except eps beta → Bool
  | .ok _ => true
  | .error _ => false

instance exceptDecEq {eps beta : Type} [DecidableEq eps] [DecidableEq beta] :
    DecidableEq (Except eps beta)
  | .ok a, .ok b =>
    if h : a = b then .isTrue (congrArg Except.ok h)
    else .isFalse fun hh => h (Except.ok.inj hh)
  | .ok _, .error _ => .isFalse fun hh => Except.noConfusion hh
  | .error _, .ok _ => .isFalse fun hh => Except.noConfusion hh
  | .error e, .error f =>
    if h : e = f then .isTrue (congrArg Except.error h)
    else .isFalse fun hh => h (Except.error.inj hh)

/-- The DJI CRC8 reproduces the check value of tests.rs `test_dji_crc8`:
"123456789" (bytes 0x31..0x39) hashes to 0x0B. -/
theorem calc_dji8_check :
    calc_dji8 [0x31, 0x32, 0x33, 0x34, 0x35, 0x36, 0x37, 0x38, 0x39] = 0x0B := by
  decide

/-- The DJI CRC16 reproduces the check value of tests.rs `test_dji_crc16`:
"123456789" hashes to 0x6F91. -/
theorem calc_dji16_check :
    calc_dji16 [0x31, 0x32, 0x33, 0x34, 0x35, 0x36, 0x37, 0x38, 0x39] = 0x6F91 := by
  decide

/-- If `position` finds an index, it is in bounds and its element satisfies the
predicate. -/
theorem position_eq_some_spec {p : Nat → Bool} :
    ∀ {l : List Nat} {i : Nat}, position p l = some i →
      i < l.length ∧ p (l.getD i 0) = true := by
  intro l
  induction l with
  | nil => intro i h; simp [position] at h
  | cons x xs ih =>
    intro i h
    by_cases hx : p x
    · simp [position, hx] at h
      subst h
      simp [hx]
    · simp [position, hx, Option.map_eq_some'] at h
      obtain ⟨j, hj, rfl⟩ := h
      obtain ⟨h1, h2⟩ := ih hj
      refine ⟨by simpa using h1, ?_⟩
      simpa [List.getD_cons_succ] using h2

/-- `position` returns the smallest matching index. -/
theorem position_eq_some_of {p : Nat → Bool} :
    ∀ {l : List Nat} {i : Nat}, i < l.length → p (l.getD i 0) = true →
      (∀ j, j < i → p (l.getD j 0) = false) → position p l = some i := by
  intro l
  induction l with
  | nil => intro i h; simp at h
  | cons x xs ih =>
    intro i hi hp hmin
    cases i with
    | zero => simp [List.getD_cons_zero] at hp; simp [position, hp]
    | succ k =>
      have hx : p x = false := by simpa [List.getD_cons_zero] using hmin 0 (by omega)
      have := ih (by simpa using hi) (by simpa [List.getD_cons_succ] using hp)
        (fun j hj => by simpa [List.getD_cons_succ] using hmin (j + 1) (by omega))
      simp [position, hx, this]

/-- If no element matches, `position` finds nothing. -/
theorem position_eq_none_of {p : Nat → Bool} :
    ∀ {l : List Nat}, (∀ j, j < l.length → p (l.getD j 0) = false) →
      position p l = none := by
  intro l
  induction l with
  | nil => intro; simp [position]
  | cons x xs ih =>
    intro hmin
    have hx : p x = false := by simpa [List.getD_cons_zero] using hmin 0 (by simp)
    have := ih fun j hj => by
      simpa [List.getD_cons_succ] using hmin (j + 1) (by simp; omega)
    simp [position, hx, this]

/-- The head of a nonempty list is its element at index 0. -/
theorem head?_eq_getD (src : List Nat) (h : 0 < src.length) :
    src.head? = some (src.getD 0 0) := by
  cases src with
  | nil => simp at h
  | cons x xs => simp

/-- Shape of a successful `pack`: given a marshal that wrote `size` bytes into
the payload region (preserving the slice length, as a Rust `&mut [u8]` must)
and a destination with room for the whole frame, `pack` returns the frame
byte-for-byte, the untouched remainder of the buffer, and the advanced
sequence counter. -/
theorem pack_ok_shape {α : Type} (c8 c16 : List Nat → Nat) (M : Marshaler α) (msg : α)
    (seq : Nat) (dst : List Nat) (size : Nat) (sub : List Nat)
    (hm : M.marshal msg (dst.drop 7) = (.ok size, sub))
    (hsize : size ≤ 65535)
    (hroom : 7 + size + 2 ≤ dst.length)
    (hsub : sub.length + 7 = dst.length) :
    pack c8 c16 M msg seq dst =
      (.ok (7 + size + 2),
        frameOf c8 c16 M seq size sub ++ sub.drop (size + 2),
        (seq + 1) % 256) := by
  have h7 : ¬ dst.length < 7 := by omega
  have hbig : ¬ size > 65535 := by omega
  have hcap : ¬ dst.length < 7 + size + 2 := by omega
  have hA : (dst.take 7).length = 7 := by simp; omega
  simp only [pack, HEAD_SIZE, CMDID_SIZE, TAIL_SIZE, hm, writeSlice]
  norm_num [h7, hbig, hcap]
  have hD : List.drop 7 (List.take 7 dst ++ sub) = sub := List.drop_left' hA
  rw [hD]
  have htake : List.take (7 + size)
      (SOF :: size % 256 :: size / 256 % 256 :: seq ::
        c8 [SOF, size % 256, size / 256 % 256, seq] ::
        M.cmd_id % 256 :: M.cmd_id / 256 % 256 :: sub) =
      SOF :: size % 256 :: size / 256 % 256 :: seq ::
        c8 [SOF, size % 256, size / 256 % 256, seq] ::
        M.cmd_id % 256 :: M.cmd_id / 256 % 256 :: sub.take size := by
    have h := @List.take_append Nat [SOF, size % 256, size / 256 % 256, seq,
      c8 [SOF, size % 256, size / 256 % 256, seq], M.cmd_id % 256, M.cmd_id / 256 % 256]
      sub size
    simpa using h
  rw [htake]
  have hdrop : List.drop (7 + size)
      (size / 256 % 256 :: seq :: c8 [SOF, size % 256, size / 256 % 256, seq] ::
        M.cmd_id % 256 :: M.cmd_id / 256 % 256 :: sub) = List.drop (size + 2) sub := by
    have h := @List.drop_append Nat [size / 256 % 256, seq,
      c8 [SOF, size % 256, size / 256 % 256, seq], M.cmd_id % 256, M.cmd_id / 256 % 256]
      sub (size + 2)
    simpa [show 5 + (size + 2) = 7 + size by omega] using h
  rw [hdrop]
  simp [frameOf]

/-- Decoding a well-formed frame: a buffer that starts with a header whose CRC8
byte matches, whose size field equals the payload length, and whose trailing
two bytes are the little-endian CRC16 of everything before them, decodes to the
expected `RawFrame` and consumed count (trailing bytes are ignored). -/
theorem unpack_frame_ok (c8 c16 : List Nat → Nat) (lo hi sq cb cl ch t0 t1 : Nat)
    (p rest : List Nat)
    (hp : p.length = lo + 256 * hi)
    (hcb : c8 [SOF, lo, hi, sq] = cb)
    (hcrc : c16 (SOF :: lo :: hi :: sq :: cb :: cl :: ch :: p) = t0 + 256 * t1) :
    unpack c8 c16 (SOF :: lo :: hi :: sq :: cb :: cl :: ch :: (p ++ t0 :: t1 :: rest)) =
      some (.ok (⟨cl + 256 * ch, sq, p⟩, 7 + p.length + 2)) := by
  simp only [unpack, HEAD_SIZE, CMDID_SIZE, TAIL_SIZE]
  norm_num
  rw [← hp]
  rw [if_neg (by omega)]
  rw [if_pos hcb]
  rw [if_neg (by omega)]
  rw [if_neg (by omega)]
  rw [if_pos (by omega)]
  rw [if_neg (by omega)]
  have hL1 : (SOF :: lo :: hi :: sq :: cb :: cl :: ch :: (p ++ t0 :: t1 :: rest))
      = ([SOF, lo, hi, sq, cb, cl, ch] ++ p) ++ (t0 :: t1 :: rest) := by simp
  have hlen1 : ([SOF, lo, hi, sq, cb, cl, ch] ++ p).length = 7 + p.length := by
    simp; omega
  have htake : List.take (7 + p.length)
      (SOF :: lo :: hi :: sq :: cb :: cl :: ch :: (p ++ t0 :: t1 :: rest))
      = [SOF, lo, hi, sq, cb, cl, ch] ++ p := by
    rw [hL1]; exact List.take_left' hlen1
  have hle1 : ([SOF, lo, hi, sq, cb, cl, ch] ++ p).length ≤ 7 + p.length := by
    simp; omega
  have hg1 : (SOF :: lo :: hi :: sq :: cb :: cl :: ch :: (p ++ t0 :: t1 :: rest))[7 + p.length]?
      = some t0 := by
    rw [hL1, List.getElem?_append_right hle1]
    have hidx : 7 + p.length - ([SOF, lo, hi, sq, cb, cl, ch] ++ p).length = 0 := by
      simp; omega
    rw [hidx]
    simp
  have hL2 : (lo :: hi :: sq :: cb :: cl :: ch :: (p ++ t0 :: t1 :: rest))
      = ([lo, hi, sq, cb, cl, ch] ++ p) ++ (t0 :: t1 :: rest) := by simp
  have hle2 : ([lo, hi, sq, cb, cl, ch] ++ p).length ≤ 7 + p.length := by
    simp; omega
  have hg2 : (lo :: hi :: sq :: cb :: cl :: ch :: (p ++ t0 :: t1 :: rest))[7 + p.length]?
      = some t1 := by
    rw [hL2, List.getElem?_append_right hle2]
    have hidx : 7 + p.length - ([lo, hi, sq, cb, cl, ch] ++ p).length = 1 := by
      simp; omega
    rw [hidx]
    simp
  rw [htake, hg1, hg2]
  rw [if_pos (by simpa using hcrc)]
  rw [List.take_left]

/-- Element 3 of a written frame prefix is the sequence byte. -/
theorem getD3_take_append (a b c d : Nat) (l r : List Nat) (k : Nat) (hk : 3 < k) :
    ((a :: b :: c :: d :: l).take k ++ r).getD 3 0 = d := by
  rw [List.getD_eq_getElem?_getD, List.getElem?_append]
  rw [if_pos (by simp; omega)]
  rw [List.getElem?_take, if_pos hk]
  simp

/-- Any failing `pack` leaves the sequence counter unchanged and the first
`min 7 dst.length` destination bytes untouched (header and command id are
committed only after every check has passed). -/
theorem pack_error_state {α : Type} (c8 c16 : List Nat → Nat) (M : Marshaler α) (msg : α)
    (seq : Nat) (dst : List Nat) (e : Err) (out : List Nat) (seq' : Nat)
    (h : pack c8 c16 M msg seq dst = (.error e, out, seq')) :
    seq' = seq ∧ out.take (min 7 dst.length) = dst.take (min 7 dst.length) := by
  simp only [pack, HEAD_SIZE, CMDID_SIZE, TAIL_SIZE] at h
  norm_num at h
  by_cases h1 : dst.length < 7
  · rw [if_pos h1] at h
    simp only [Prod.mk.injEq] at h
    exact ⟨h.2.2.symm, by rw [h.2.1]⟩
  · rw [if_neg h1] at h
    have htk : (dst.take 7).length = 7 := by simp; omega
    have hout7 : ∀ sub : List Nat, ((dst.take 7 ++ sub).take (min 7 dst.length) =
        dst.take (min 7 dst.length)) := by
      intro sub
      have hmin : min 7 dst.length = 7 := by omega
      rw [hmin, List.take_left' htk]
    split at h
    · simp only [Prod.mk.injEq] at h
      exact ⟨h.2.2.symm, by rw [← h.2.1]; exact hout7 _⟩
    · split_ifs at h with h2 h3
      · simp only [Prod.mk.injEq] at h
        exact ⟨h.2.2.symm, by rw [← h.2.1]; exact hout7 _⟩
      · simp only [Prod.mk.injEq] at h
        exact ⟨h.2.2.symm, by rw [← h.2.1]; exact hout7 _⟩
      · simp only [Prod.mk.injEq] at h
        exact absurd h.1 (by simp)

/-- Any successful `pack` advances the sequence counter by exactly one mod 256
and stamps the pre-call counter into byte 3 of the emitted frame. -/
theorem pack_ok_state {α : Type} (c8 c16 : List Nat → Nat) (M : Marshaler α) (msg : α)
    (seq : Nat) (dst : List Nat) (n : Nat) (out : List Nat) (seq' : Nat)
    (h : pack c8 c16 M msg seq dst = (.ok n, out, seq')) :
    seq' = (seq + 1) % 256 ∧ out.getD 3 0 = seq := by
  simp only [pack, HEAD_SIZE, CMDID_SIZE, TAIL_SIZE, writeSlice] at h
  norm_num at h
  by_cases h1 : dst.length < 7
  · rw [if_pos h1] at h; simp at h
  · rw [if_neg h1] at h
    split at h
    · simp at h
    · rename_i size heq
      split_ifs at h with h2 h3
      · simp at h
      · simp at h
      · simp only [Prod.mk.injEq, Except.ok.injEq] at h
        obtain ⟨hn, hout, hs⟩ := h
        refine ⟨hs.symm, ?_⟩
        rw [← hout]
        exact getD3_take_append _ _ _ _ _ _ _ (show 3 < 7 + size by omega)

/-- A run of all-successful `pack` calls starting at a `u8` counter emits the
counter values `s, s+1, ... (mod 256)` as the sequence bytes of the frames. -/
theorem packChain_seq {α : Type} (c8 c16 : List Nat → Nat) (M : Marshaler α) :
    ∀ (jobs : List (α × List Nat)) (seq : Nat), seq < 256 →
      (∀ r ∈ (packChain c8 c16 M jobs seq).1, isOk r.1 = true) →
      (packChain c8 c16 M jobs seq).1.map (fun r => r.2.getD 3 0) =
        (List.range jobs.length).map (fun k => (seq + k) % 256) := by
  intro jobs
  induction jobs with
  | nil => intro seq hs hok; simp [packChain]
  | cons job rest ih =>
    intro seq hs hok
    obtain ⟨msg, dst⟩ := job
    simp only [packChain] at hok ⊢
    have h1 : isOk (pack c8 c16 M msg seq dst).1 = true := hok _ (List.mem_cons_self _ _)
    obtain ⟨n, hn⟩ : ∃ n, (pack c8 c16 M msg seq dst).1 = .ok n := by
      cases hpk : (pack c8 c16 M msg seq dst).1 with
      | ok v => exact ⟨v, rfl⟩
      | error e => rw [hpk] at h1; simp [isOk] at h1
    have hpair : pack c8 c16 M msg seq dst =
        (Except.ok n, (pack c8 c16 M msg seq dst).2.1, (pack c8 c16 M msg seq dst).2.2) := by
      rw [← hn]
    obtain ⟨hs', hb⟩ := pack_ok_state c8 c16 M msg seq dst n _ _ hpair
    have htail : ∀ r ∈ (packChain c8 c16 M rest ((seq + 1) % 256)).1, isOk r.1 = true := by
      intro r hr
      refine hok r (List.mem_cons_of_mem _ ?_)
      rw [hs']
      exact hr
    have ihtail := ih ((seq + 1) % 256) (Nat.mod_lt _ (by omega)) htail
    simp only [List.map_cons, List.length_cons, List.range_succ_eq_map, hb, hs', ihtail,
      List.map_map, List.cons.injEq]
    refine ⟨by omega, List.map_congr_left ?_⟩
    intro k hk
    simp only [Function.comp_apply]
    omega

/-- Result taxonomy of `unpack` on an arbitrary buffer: decoding either
succeeds, or fails with an error whose `skip` is at most the buffer length and
is zero only for `UnexpectedEnd` (a truncated frame) or on the empty buffer. -/
theorem unpack_cases (c8 c16 : List Nat → Nat) (src : List Nat) :
    (∃ v, unpack c8 c16 src = some (.ok v)) ∨
    (∃ e, unpack c8 c16 src = some (.error e) ∧ e.skip ≤ src.length ∧
      (e.skip = 0 → (∃ n, e = .UnexpectedEnd n) ∨ src = [])) := by
  simp only [unpack, HEAD_SIZE, CMDID_SIZE, TAIL_SIZE]
  norm_num
  by_cases h1 : src.head? = some SOF
  · rw [if_pos h1]
    by_cases h2 : src.length < 5
    · rw [if_pos h2]
      exact Or.inr ⟨_, rfl, by simp [Err.skip], fun _ => Or.inl ⟨_, rfl⟩⟩
    · rw [if_neg h2]
      by_cases h3 : c8 (List.take 4 (List.take 5 src)) = src[4]?.getD 0
      · rw [if_pos h3]
        by_cases h4 : src.length < 7
        · rw [if_pos h4]
          exact Or.inr ⟨_, rfl, by simp [Err.skip], fun _ => Or.inl ⟨_, rfl⟩⟩
        · rw [if_neg h4]
          by_cases h5 : src.length < 7 + (src[1]?.getD 0 + 256 * src[2]?.getD 0)
          · rw [if_pos h5]
            exact Or.inr ⟨_, rfl, by simp [Err.skip], fun _ => Or.inl ⟨_, rfl⟩⟩
          · rw [if_neg h5, if_pos (show 7 + (src[1]?.getD 0 + 256 * src[2]?.getD 0) ≤
                src.length by omega)]
            by_cases h6 : src.length < 7 + (src[1]?.getD 0 + 256 * src[2]?.getD 0) + 2
            · rw [if_pos h6]
              exact Or.inr ⟨_, rfl, by simp [Err.skip], fun _ => Or.inl ⟨_, rfl⟩⟩
            · rw [if_neg h6]
              by_cases h7 : c16 (List.take (7 + (src[1]?.getD 0 + 256 * src[2]?.getD 0)) src) =
                  src[7 + (src[1]?.getD 0 + 256 * src[2]?.getD 0)]?.getD 0 +
                    256 * src[7 + (src[1]?.getD 0 + 256 * src[2]?.getD 0) + 1]?.getD 0
              · rw [if_pos h7]
                exact Or.inl ⟨_, _, rfl⟩
              · rw [if_neg h7]
                refine Or.inr ⟨_, rfl, ?_, ?_⟩
                · simp only [Err.skip]
                  omega
                · intro h0
                  simp [Err.skip] at h0
      · rw [if_neg h3]
        refine Or.inr ⟨_, rfl, ?_, ?_⟩
        · simp only [Err.skip]
          omega
        · intro h0
          simp [Err.skip] at h0
  · rw [if_neg h1]
    cases hpos : position (fun x => x == SOF) src with
    | some i =>
      obtain ⟨hlt, hpi⟩ := position_eq_some_spec hpos
      refine Or.inr ⟨.ReSync i, rfl, by simp only [Err.skip]; omega, ?_⟩
      intro h0
      simp only [Err.skip] at h0
      subst h0
      have hne := head?_eq_getD src (by omega)
      rw [beq_iff_eq] at hpi
      rw [hpi] at hne
      exact absurd hne h1
    | none =>
      refine Or.inr ⟨.MissingHeader src.length, rfl, by simp only [Err.skip]; omega, ?_⟩
      intro h0
      simp only [Err.skip] at h0
      exact Or.inr (List.length_eq_zero.mp h0)

/-- C1: Round-trip law. For any Validator (checksum functions typed as in the
Rust trait: the CRC16 fits in a u16) and any contract-abiding Marshaler value
(its `CMD_ID` is a u16; `marshal` reports the written count, writes only within
the fixed-length payload slice, and its own `unmarshal` inverts the bytes it
wrote), packing into a buffer large enough for the frame and unpacking the
written bytes succeeds, yields a RawFrame whose `cmd_id` equals the type's
CMD_ID, and whose payload unmarshals back to the original value. -/
theorem C1_pack_unpack_roundtrip {α : Type} (c8 c16 : List Nat → Nat) (M : Marshaler α)
    (v : α) (seq : Nat) (dst : List Nat) (size : Nat) (sub : List Nat)
    (hc16 : ∀ l, c16 l < 65536)
    (hcmd : M.cmd_id < 65536)
    (hm : M.marshal v (dst.drop 7) = (.ok size, sub))
    (hsub : sub.length + 7 = dst.length)
    (hsize : size ≤ 65535)
    (hroom : 7 + size + 2 ≤ dst.length)
    (hun : M.unmarshal (sub.take size) = .ok v) :
    ∃ out frame,
      pack c8 c16 M v seq dst = (.ok (7 + size + 2), out, (seq + 1) % 256) ∧
      unpack c8 c16 (out.take (7 + size + 2)) = some (.ok (frame, 7 + size + 2)) ∧
      frame.cmd_id = M.cmd_id ∧
      M.unmarshal frame.payload = .ok v := by
  have hshape := pack_ok_shape c8 c16 M v seq dst size sub hm hsize hroom hsub
  have hplen : (sub.take size).length = size := by simp; omega
  have hfl : (frameOf c8 c16 M seq size sub).length = 7 + size + 2 := by
    simp [frameOf]; omega
  have htk : (frameOf c8 c16 M seq size sub ++ sub.drop (size + 2)).take (7 + size + 2) =
      frameOf c8 c16 M seq size sub := List.take_left' hfl
  have hform : frameOf c8 c16 M seq size sub =
      SOF :: size % 256 :: size / 256 % 256 :: seq ::
        c8 [SOF, size % 256, size / 256 % 256, seq] ::
        M.cmd_id % 256 :: M.cmd_id / 256 % 256 ::
        (sub.take size ++
          c16 ([SOF, size % 256, size / 256 % 256, seq,
              c8 [SOF, size % 256, size / 256 % 256, seq],
              M.cmd_id % 256, M.cmd_id / 256 % 256] ++ sub.take size) % 256 ::
          c16 ([SOF, size % 256, size / 256 % 256, seq,
              c8 [SOF, size % 256, size / 256 % 256, seq],
              M.cmd_id % 256, M.cmd_id / 256 % 256] ++ sub.take size) / 256 % 256 :: []) := by
    simp [frameOf]
  have hun2 := unpack_frame_ok c8 c16 (size % 256) (size / 256 % 256) seq
    (c8 [SOF, size % 256, size / 256 % 256, seq]) (M.cmd_id % 256) (M.cmd_id / 256 % 256)
    (c16 ([SOF, size % 256, size / 256 % 256, seq,
        c8 [SOF, size % 256, size / 256 % 256, seq],
        M.cmd_id % 256, M.cmd_id / 256 % 256] ++ sub.take size) % 256)
    (c16 ([SOF, size % 256, size / 256 % 256, seq,
        c8 [SOF, size % 256, size / 256 % 256, seq],
        M.cmd_id % 256, M.cmd_id / 256 % 256] ++ sub.take size) / 256 % 256)
    (sub.take size) []
    (by rw [hplen]; omega)
    rfl
    (by
      have hlt := hc16 ([SOF, size % 256, size / 256 % 256, seq,
        c8 [SOF, size % 256, size / 256 % 256, seq],
        M.cmd_id % 256, M.cmd_id / 256 % 256] ++ sub.take size)
      simp only [List.cons_append, List.nil_append] at hlt ⊢
      omega)
  refine ⟨_, ⟨M.cmd_id % 256 + 256 * (M.cmd_id / 256 % 256), seq, sub.take size⟩,
    hshape, ?_, by simp; omega, by simpa using hun⟩
  rw [htk, hform]
  rw [hun2]
  rw [hplen]

/-- C1 witness: the round-trip at the concrete `TestCase<5>` payload
`[1,2,3,4,5]` of tests.rs `test_encode_decode`, with a trivial validator. -/
theorem C1_pack_unpack_roundtrip_witness :
    ∃ out frame,
      pack (fun _ => 0) (fun _ => 0) (testCase 5) [1, 2, 3, 4, 5] 0 (List.replicate 64 0) =
        (.ok 14, out, 1) ∧
      unpack (fun _ => 0) (fun _ => 0) (out.take 14) = some (.ok (frame, 14)) ∧
      frame.cmd_id = (testCase 5).cmd_id ∧
      (testCase 5).unmarshal frame.payload = .ok [1, 2, 3, 4, 5] :=
  C1_pack_unpack_roundtrip (fun _ => 0) (fun _ => 0) (testCase 5) [1, 2, 3, 4, 5] 0
    (List.replicate 64 0) 5 ([1, 2, 3, 4, 5] ++ List.replicate 52 0)
    (fun _ => Nat.zero_lt_succ 65535) (by decide) (by decide) (by decide) (by decide)
    (by decide) (by decide)

/-- C2: Concrete encode scenario of tests.rs `test_encode` under the (spec-
modelled) DJI validator: packing the 5-byte payload `[1,2,3,4,5]` (CMD_ID
0x1234) at sequence 0x56 into a 64-byte buffer returns Ok(14) and writes
exactly `A5 05 00 56 F0 34 12 01 02 03 04 05 84 71`, leaving the rest of the
buffer untouched. -/
theorem C2_encode_bytes :
    (pack calc_dji8 calc_dji16 (testCase 5) [1, 2, 3, 4, 5] 0x56 (List.replicate 64 0)).1 =
        .ok 14 ∧
    (pack calc_dji8 calc_dji16 (testCase 5) [1, 2, 3, 4, 5] 0x56 (List.replicate 64 0)).2.1 =
      [0xA5, 0x05, 0x00, 0x56, 0xF0, 0x34, 0x12, 0x01, 0x02, 0x03, 0x04, 0x05, 0x84, 0x71] ++
        List.replicate 50 0 :=
  ⟨by decide, by decide⟩

/-- C3: The sequence counter increases by exactly 1 mod 256 on every `pack`
that returns Ok (and the pre-call counter is stamped into byte 3 of the frame),
is unchanged by every `pack` that returns an error, is unchanged by `unpack`
(whose `&self` receiver is returned as-is), and consequently N consecutive
successful `pack` calls starting from a u8 counter `s` emit frames with
sequence bytes `s, s+1, ..., s+N-1 (mod 256)`. -/
theorem C3_sequence_counter :
    (∀ (α : Type) (c8 c16 : List Nat → Nat) (M : Marshaler α) (msg : α) (seq : Nat)
        (dst : List Nat) (n : Nat) (out : List Nat) (seq' : Nat),
      pack c8 c16 M msg seq dst = (.ok n, out, seq') →
        seq' = (seq + 1) % 256 ∧ out.getD 3 0 = seq) ∧
    (∀ (α : Type) (c8 c16 : List Nat → Nat) (M : Marshaler α) (msg : α) (seq : Nat)
        (dst : List Nat) (e : Err) (out : List Nat) (seq' : Nat),
      pack c8 c16 M msg seq dst = (.error e, out, seq') → seq' = seq) ∧
    (∀ (m : Messager) (c8 c16 : List Nat → Nat) (src : List Nat),
      (Messager.unpack m c8 c16 src).2 = m) ∧
    (∀ (α : Type) (c8 c16 : List Nat → Nat) (M : Marshaler α)
        (jobs : List (α × List Nat)) (seq : Nat), seq < 256 →
      (∀ r ∈ (packChain c8 c16 M jobs seq).1, isOk r.1 = true) →
      (packChain c8 c16 M jobs seq).1.map (fun r => r.2.getD 3 0) =
        (List.range jobs.length).map (fun k => (seq + k) % 256)) := by
  refine ⟨?_, ?_, ?_, ?_⟩
  · intro α c8 c16 M msg seq dst n out seq' h
    exact pack_ok_state c8 c16 M msg seq dst n out seq' h
  · intro α c8 c16 M msg seq dst e out seq' h
    exact (pack_error_state c8 c16 M msg seq dst e out seq' h).1
  · intro m c8 c16 src
    rfl
  · intro α c8 c16 M jobs seq hs hok
    exact packChain_seq c8 c16 M jobs seq hs hok

/-- C3 witness: a successful pack at sequence 0x55 advances to 0x56 and stamps
0x55; a two-frame chain starting at 0xFF emits sequence bytes 0xFF, 0x00
(wrapping). -/
theorem C3_sequence_counter_witness :
    ((0x56 : Nat) = (0x55 + 1) % 256 ∧
      (pack (fun _ => 0) (fun _ => 0) (testCase 5) [1, 2, 3, 4, 5] 0x55
        (List.replicate 64 0)).2.1.getD 3 0 = 0x55) ∧
    (packChain (fun _ => 0) (fun _ => 0) (testCase 5)
        [([1, 2, 3, 4, 5], List.replicate 64 0),
          ([9, 8, 7, 6, 5], List.replicate 20 0)] 0xFF).1.map
        (fun r => r.2.getD 3 0) =
      (List.range 2).map (fun k => (0xFF + k) % 256) :=
  ⟨C3_sequence_counter.1 (List Nat) (fun _ => 0) (fun _ => 0) (testCase 5) [1, 2, 3, 4, 5]
      0x55 (List.replicate 64 0) 14 _ _ (by decide),
   C3_sequence_counter.2.2.2 (List Nat) (fun _ => 0) (fun _ => 0) (testCase 5)
      [([1, 2, 3, 4, 5], List.replicate 64 0), ([9, 8, 7, 6, 5], List.replicate 20 0)] 0xFF
      (by decide) (by decide)⟩

/-- C4: If the buffer does not start with SOF, then: if SOF occurs at a
smallest index i, `unpack` returns ReSync with skip = i (and i > 0, so the
marker itself is not consumed); if SOF occurs nowhere, `unpack` returns
MissingHeader with skip = the buffer length. In particular the 10-byte all-zero
buffer of tests.rs `test_invalid_decode` gives MissingHeader skip=10, and the
13-byte SOF-free frame-shaped buffer of `test_sof_not_found` gives
MissingHeader skip=13. -/
theorem C4_resync_missing_header :
    (∀ (c8 c16 : List Nat → Nat) (src : List Nat) (i : Nat),
      src.head? ≠ some SOF → i < src.length → src.getD i 0 = SOF →
      (∀ j, j < i → src.getD j 0 ≠ SOF) →
      unpack c8 c16 src = some (.error (.ReSync i)) ∧ 0 < i) ∧
    (∀ (c8 c16 : List Nat → Nat) (src : List Nat),
      src.head? ≠ some SOF → (∀ j, j < src.length → src.getD j 0 ≠ SOF) →
      unpack c8 c16 src = some (.error (.MissingHeader src.length))) ∧
    unpack calc_dji8 calc_dji16 (List.replicate 10 0) =
      some (.error (.MissingHeader 10)) ∧
    unpack calc_dji8 calc_dji16
        [0x05, 0x00, 0x56, 0xF0, 0x34, 0x12, 0x01, 0x02, 0x03, 0x04, 0x05, 0x84, 0x71] =
      some (.error (.MissingHeader 13)) := by
  refine ⟨?_, ?_, by decide, by decide⟩
  · intro c8 c16 src i h1 hi hgi hmin
    have hpos : position (fun x => x == SOF) src = some i :=
      position_eq_some_of hi (by simp only [beq_iff_eq]; exact hgi)
        (fun j hj => by simp only [beq_eq_false_iff_ne]; exact hmin j hj)
    have hip : 0 < i := by
      rcases Nat.eq_zero_or_pos i with hz | hp
      · subst hz
        have hne := head?_eq_getD src (by omega)
        rw [hgi] at hne
        exact absurd hne h1
      · exact hp
    refine ⟨?_, hip⟩
    simp only [unpack]
    rw [if_pos h1, hpos]
  · intro c8 c16 src h1 hmin
    have hpos : position (fun x => x == SOF) src = none :=
      position_eq_none_of
        (fun j hj => by simp only [beq_eq_false_iff_ne]; exact hmin j hj)
    simp only [unpack]
    rw [if_pos h1, hpos]

/-- C4 witness: `[0, 0xA5]` resyncs with skip 1 (marker left in the buffer);
`[1, 2, 3]` has no SOF and reports the whole 3-byte span. -/
theorem C4_resync_missing_header_witness :
    (unpack (fun _ => 0) (fun _ => 0) [0, 0xA5] = some (.error (.ReSync 1)) ∧ 0 < 1) ∧
    unpack (fun _ => 0) (fun _ => 0) [1, 2, 3] = some (.error (.MissingHeader 3)) :=
  ⟨C4_resync_missing_header.1 (fun _ => 0) (fun _ => 0) [0, 0xA5] 1 (by decide) (by decide)
      (by decide) (by decide),
   C4_resync_missing_header.2.1 (fun _ => 0) (fun _ => 0) [1, 2, 3] (by decide) (by decide)⟩

/-- C5 counterexample: on the 1-byte buffer `[0xA5]` (a truncated frame),
`unpack` fails with UnexpectedEnd, whose `skip()` is 0, and draining 0 bytes
leaves the buffer unchanged — so this iteration of the claimed loop neither
succeeds nor strictly decreases the remaining buffer length, and the loop as
claimed runs forever on this input. -/
theorem C5_drain_loop_counterexample :
    unpack calc_dji8 calc_dji16 [0xA5] = some (.error (.UnexpectedEnd 1)) ∧
    (Err.UnexpectedEnd 1).skip = 0 ∧
    ([0xA5] : List Nat).drop (Err.UnexpectedEnd 1).skip = [0xA5] := by
  decide

/-- C5 amended: each iteration of "unpack; on error drain skip() bytes" either
succeeds, or strictly decreases the remaining buffer length, or returns an
error whose skip() is 0 — which `unpack` produces only as UnexpectedEnd (a
truncated frame, where the caller must await more input) or on the empty
buffer — in which case the drain step leaves the buffer unchanged. So the loop
terminates provided the caller stops at skip() = 0. -/
theorem C5_drain_loop_amended :
    ∀ (c8 c16 : List Nat → Nat) (src : List Nat),
      (∃ v, unpack c8 c16 src = some (.ok v)) ∨
      (∃ e, unpack c8 c16 src = some (.error e) ∧
        ((0 < e.skip ∧ (src.drop e.skip).length < src.length) ∨
          (e.skip = 0 ∧ src.drop e.skip = src ∧
            ((∃ n, e = .UnexpectedEnd n) ∨ src = [])))) := by
  intro c8 c16 src
  rcases unpack_cases c8 c16 src with h | ⟨e, he, hle, h0⟩
  · exact Or.inl h
  · refine Or.inr ⟨e, he, ?_⟩
    by_cases hz : e.skip = 0
    · exact Or.inr ⟨hz, by rw [hz, List.drop_zero], h0 hz⟩
    · refine Or.inl ⟨by omega, ?_⟩
      rw [List.length_drop]
      omega

/-- C5 witness: the amended statement instantiated at the noisy buffer
`[0, 0xA5, 7]`, whose ReSync error drains one byte and strictly shrinks the
buffer. -/
theorem C5_drain_loop_amended_witness :
    (∃ v, unpack calc_dji8 calc_dji16 [0, 0xA5, 7] = some (.ok v)) ∨
    (∃ e, unpack calc_dji8 calc_dji16 [0, 0xA5, 7] = some (.error e) ∧
      ((0 < e.skip ∧ (([0, 0xA5, 7] : List Nat).drop e.skip).length <
          ([0, 0xA5, 7] : List Nat).length) ∨
        (e.skip = 0 ∧ ([0, 0xA5, 7] : List Nat).drop e.skip = [0, 0xA5, 7] ∧
          ((∃ n, e = .UnexpectedEnd n) ∨ ([0, 0xA5, 7] : List Nat) = [])))) :=
  C5_drain_loop_amended calc_dji8 calc_dji16 [0, 0xA5, 7]

/-- C6: `unpack` is total on every input buffer: the `unwrap()` at msger.rs
line 239 can never panic, because the payload read has already established that
the cursor is within bounds; every input yields a RawFrame or an Error. -/
theorem C6_unpack_total :
    ∀ (c8 c16 : List Nat → Nat) (src : List Nat), (unpack c8 c16 src).isSome = true := by
  intro c8 c16 src
  rcases unpack_cases c8 c16 src with ⟨v, hv⟩ | ⟨e, he, _⟩
  · rw [hv]; rfl
  · rw [he]; rfl

/-- C7: `Error::skip` implements exactly the recovery table of the error
taxonomy: the skip field for ReSync and MissingHeader, 1 for InvalidChecksum,
the at field for DecodeError, and 0 for BufferTooSmall, InputTooLarge,
UnexpectedEnd, EncodeError and InvalidDataLength. -/
theorem C7_skip_table :
    (∀ n, (Err.ReSync n).skip = n) ∧ (∀ n, (Err.MissingHeader n).skip = n) ∧
    (∀ n, (Err.InvalidChecksum n).skip = 1) ∧ (∀ n, (Err.DecodeError n).skip = n) ∧
    (∀ n, (Err.BufferTooSmall n).skip = 0) ∧ (∀ n, (Err.InputTooLarge n).skip = 0) ∧
    (∀ n, (Err.UnexpectedEnd n).skip = 0) ∧ (∀ n, (Err.EncodeError n).skip = 0) ∧
    (∀ n, (Err.InvalidDataLength n).skip = 0) :=
  ⟨fun _ => rfl, fun _ => rfl, fun _ => rfl, fun _ => rfl, fun _ => rfl,
   fun _ => rfl, fun _ => rfl, fun _ => rfl, fun _ => rfl⟩

/-- C8: For any Validator and any buffer that starts with SOF and holds at
least 5 bytes: a CRC8 mismatch over the first 4 header bytes against the 5th
yields InvalidChecksum at 5; with a valid header and the full frame available,
a CRC16 mismatch over bytes [0, 7+LEN) against the little-endian u16 at offset
7+LEN yields InvalidChecksum at 9+LEN, the offset just after the CRC16 field. -/
theorem C8_invalid_checksum :
    (∀ (c8 c16 : List Nat → Nat) (src : List Nat),
      src.head? = some SOF → 5 ≤ src.length →
      c8 (src.take 4) ≠ src.getD 4 0 →
      unpack c8 c16 src = some (.error (.InvalidChecksum 5))) ∧
    (∀ (c8 c16 : List Nat → Nat) (src : List Nat) (L : Nat),
      src.head? = some SOF → 5 ≤ src.length →
      c8 (src.take 4) = src.getD 4 0 →
      L = src.getD 1 0 + 256 * src.getD 2 0 →
      9 + L ≤ src.length →
      c16 (src.take (7 + L)) ≠ src.getD (7 + L) 0 + 256 * src.getD (8 + L) 0 →
      unpack c8 c16 src = some (.error (.InvalidChecksum (9 + L)))) := by
  constructor
  · intro c8 c16 src h1 h2 h3
    simp only [unpack, HEAD_SIZE, CMDID_SIZE, TAIL_SIZE]
    norm_num
    rw [if_pos h1, if_neg (by omega)]
    rw [if_neg (by
      rw [List.take_take]
      norm_num
      rw [← List.getD_eq_getElem?_getD]
      exact h3)]
  · intro c8 c16 src L h1 h2 hc8 hL hroom h16
    subst hL
    rw [List.getD_eq_getElem?_getD src 1, List.getD_eq_getElem?_getD src 2] at hroom h16 ⊢
    simp only [unpack, HEAD_SIZE, CMDID_SIZE, TAIL_SIZE]
    norm_num
    rw [if_pos h1, if_neg (by omega)]
    rw [if_pos (by
      rw [List.take_take]
      norm_num
      rw [← List.getD_eq_getElem?_getD]
      exact hc8)]
    rw [if_neg (by omega), if_neg (by omega), if_pos (by omega), if_neg (by omega)]
    rw [if_neg (by
      rw [show 7 + (src[1]?.getD 0 + 256 * src[2]?.getD 0) + 1 =
        8 + (src[1]?.getD 0 + 256 * src[2]?.getD 0) from by omega]
      rw [← List.getD_eq_getElem?_getD src (7 + (src[1]?.getD 0 + 256 * src[2]?.getD 0)),
        ← List.getD_eq_getElem?_getD src (8 + (src[1]?.getD 0 + 256 * src[2]?.getD 0))]
      exact h16)]
    rw [show 7 + (src[1]?.getD 0 + 256 * src[2]?.getD 0) + 2 =
      9 + (src[1]?.getD 0 + 256 * src[2]?.getD 0) from by omega]

/-- C8 witness: the corrupted-header vector of tests.rs
`test_invalid_header_checksum` fails at offset 5, and the zeroed-tail vector of
`test_invalid_tail_checksum` (LEN = 5) fails at offset 14 = 9 + 5, under the
DJI checksums. -/
theorem C8_invalid_checksum_witness :
    unpack calc_dji8 calc_dji16
        [0xA5, 0x05, 0xFF, 0x56, 0xF0, 0x34, 0x12, 1, 2, 3, 4, 5, 0x84, 0x71] =
      some (.error (.InvalidChecksum 5)) ∧
    unpack calc_dji8 calc_dji16
        [0xA5, 0x05, 0x00, 0x56, 0xF0, 0x34, 0x12, 1, 2, 3, 4, 5, 0, 0] =
      some (.error (.InvalidChecksum (9 + 5))) :=
  ⟨C8_invalid_checksum.1 calc_dji8 calc_dji16
      [0xA5, 0x05, 0xFF, 0x56, 0xF0, 0x34, 0x12, 1, 2, 3, 4, 5, 0x84, 0x71]
      (by decide) (by decide) (by decide),
   C8_invalid_checksum.2 calc_dji8 calc_dji16
      [0xA5, 0x05, 0x00, 0x56, 0xF0, 0x34, 0x12, 1, 2, 3, 4, 5, 0, 0] 5
      (by decide) (by decide) (by decide) (by decide) (by decide) (by decide)⟩

/-- C9: `pack` fails with BufferTooSmall need=7 when the destination is shorter
than 7 bytes; after a marshal that wrote `size` bytes it fails with
BufferTooSmall need = (7+size+2) − dst.len() when the destination cannot hold
the whole frame; and the concrete scenario of tests.rs `test_insufficient_buffer`
— a 5-byte TestCase payload into a 10-byte buffer — fails with BufferTooSmall
need=5, propagated as-is from the Marshaler's own §4.2 check. -/
theorem C9_buffer_too_small :
    (∀ (α : Type) (c8 c16 : List Nat → Nat) (M : Marshaler α) (msg : α) (seq : Nat)
        (dst : List Nat), dst.length < 7 →
      pack c8 c16 M msg seq dst = (.error (.BufferTooSmall 7), dst, seq)) ∧
    (∀ (α : Type) (c8 c16 : List Nat → Nat) (M : Marshaler α) (msg : α) (seq : Nat)
        (dst : List Nat) (size : Nat) (sub : List Nat),
      7 ≤ dst.length → M.marshal msg (dst.drop 7) = (.ok size, sub) → size ≤ 65535 →
      dst.length < 7 + size + 2 →
      (pack c8 c16 M msg seq dst).1 =
        .error (.BufferTooSmall (7 + size + 2 - dst.length))) ∧
    (∀ c8 c16 : List Nat → Nat,
      (pack c8 c16 (testCase 5) [1, 2, 3, 4, 5] 0x56 (List.replicate 10 0)).1 =
        .error (.BufferTooSmall 5)) := by
  refine ⟨?_, ?_, ?_⟩
  · intro α c8 c16 M msg seq dst h
    simp only [pack, HEAD_SIZE, CMDID_SIZE, TAIL_SIZE]
    norm_num [h]
  · intro α c8 c16 M msg seq dst size sub h7 hm hsize hcap
    have h1 : ¬ dst.length < 7 := by omega
    have h2 : ¬ size > 65535 := by omega
    simp only [pack, HEAD_SIZE, CMDID_SIZE, TAIL_SIZE, hm]
    norm_num [h1, h2, hcap]
  · intro c8 c16
    rfl

/-- C9 witness: a 3-byte destination fails with need=7; an 8-byte destination
with an empty payload (total 9) fails with need=1; the 10-byte destination of
`test_insufficient_buffer` fails with need=5. -/
theorem C9_buffer_too_small_witness :
    pack (fun _ => 0) (fun _ => 0) (testCase 5) [1, 2, 3, 4, 5] 0x56 [0, 0, 0] =
      (.error (.BufferTooSmall 7), [0, 0, 0], 0x56) ∧
    (pack (fun _ => 0) (fun _ => 0) (testCase 0) [] 0x10 (List.replicate 8 0)).1 =
      .error (.BufferTooSmall 1) ∧
    (pack calc_dji8 calc_dji16 (testCase 5) [1, 2, 3, 4, 5] 0x56 (List.replicate 10 0)).1 =
      .error (.BufferTooSmall 5) :=
  ⟨C9_buffer_too_small.1 (List Nat) (fun _ => 0) (fun _ => 0) (testCase 5) [1, 2, 3, 4, 5]
      0x56 [0, 0, 0] (by decide),
   by
    have h := C9_buffer_too_small.2.1 (List Nat) (fun _ => 0) (fun _ => 0) (testCase 0) []
      0x10 (List.replicate 8 0) 0 (List.replicate 1 0) (by decide) (by decide) (by decide)
      (by decide)
    simpa using h,
   C9_buffer_too_small.2.2 calc_dji8 calc_dji16⟩

/-- C10: Whenever `pack` returns an error, the first min(7, dst.len()) bytes of
the destination — the header and command-id region — are exactly what they were
before the call: on every error path only the payload region from offset 7
onward can have been touched (by the Marshaler). -/
theorem C10_error_leaves_header_region :
    ∀ (α : Type) (c8 c16 : List Nat → Nat) (M : Marshaler α) (msg : α) (seq : Nat)
      (dst : List Nat) (e : Err) (out : List Nat) (seq' : Nat),
      pack c8 c16 M msg seq dst = (.error e, out, seq') →
      out.take (min 7 dst.length) = dst.take (min 7 dst.length) := by
  intro α c8 c16 M msg seq dst e out seq' h
  exact (pack_error_state c8 c16 M msg seq dst e out seq' h).2

/-- C10 witness: the failing 10-byte-destination pack of
`test_insufficient_buffer` leaves the first 7 destination bytes unchanged. -/
theorem C10_error_leaves_header_region_witness :
    (pack calc_dji8 calc_dji16 (testCase 5) [1, 2, 3, 4, 5] 0x56
        (List.replicate 10 0)).2.1.take (min 7 (List.replicate 10 (0 : Nat)).length) =
      (List.replicate 10 (0 : Nat)).take (min 7 (List.replicate 10 (0 : Nat)).length) :=
  C10_error_leaves_header_region (List Nat) calc_dji8 calc_dji16 (testCase 5)
    [1, 2, 3, 4, 5] 0x56 (List.replicate 10 0) (.BufferTooSmall 5)
    (pack calc_dji8 calc_dji16 (testCase 5) [1, 2, 3, 4, 5] 0x56 (List.replicate 10 0)).2.1
    0x56 (by decide)

end DjiFrame
